import Mathlib

/-!
# Gradebook-Transfer: verification of the grade-aggregation and report engine

Shallow embedding of `src/app.py` (the only source file).  Cell values of the
tabular dataset are modelled by `CellVal`; Python floats are modelled by `ℚ`
(exact rational arithmetic; the claims under study only involve values that are
exact in binary floating point as well).  Fallible parsing is modelled by
`Option`.  The spreadsheet writer is modelled by the ordered list of layout
rows (`LRow`) the code emits per student, abstracting styling constants that no
claim mentions (fonts, borders, column widths) but keeping the cell values,
fills and banner texts the code writes.
-/

namespace Gradebook

/-- A raw cell of the dataset: missing (pandas `NaN`), a string, or a number.
Python floats are modelled as rationals. -/
inductive CellVal where
  | na : CellVal
  | str : String → CellVal
  | num : ℚ → CellVal
deriving DecidableEq

/-! ## Character-level string helpers

Python's `str.strip` / `str.upper` / `str.lower` / slicing, modelled on the
character list of the string (so that every definition evaluates in the
kernel). -/

/-- Python `s.strip()`: drop whitespace from both ends. -/
def pyStrip (s : String) : String :=
  String.mk (((s.toList.dropWhile Char.isWhitespace).reverse.dropWhile
    Char.isWhitespace).reverse)

/-- Python `s.upper()` (ASCII case mapping, which covers the `"E"` marker). -/
def pyUpper (s : String) : String := String.mk (s.toList.map Char.toUpper)

/-- Python `s.lower()` (ASCII case mapping). -/
def pyLower (s : String) : String := String.mk (s.toList.map Char.toLower)

/-- Python `s[:n]`: slicing by characters. -/
def pyTake (s : String) (n : ℕ) : String := String.mk (s.toList.take n)

/-! ## Decimal rendering of numbers (Python `str`/f-strings on ints) -/

/-- The decimal digit character for `d` (callers only use `d < 10`). -/
def digitChar : ℕ → Char
  | 0 => '0' | 1 => '1' | 2 => '2' | 3 => '3' | 4 => '4'
  | 5 => '5' | 6 => '6' | 7 => '7' | 8 => '8' | _ => '9'

/-- Big-endian decimal digits of `n`, fuel-structured so that it evaluates in
the kernel; `fuel ≥ n + 1` always suffices. -/
def toDigitsAux : ℕ → ℕ → List Char
  | 0, _ => []
  | fuel + 1, n =>
    if n < 10 then [digitChar n]
    else toDigitsAux fuel (n / 10) ++ [digitChar (n % 10)]

/-- Decimal rendering of a natural number, as Python `str(int)` /
f-string interpolation produce it. -/
def natToString (n : ℕ) : String := String.mk (toDigitsAux (n + 1) n)

/-- Value of a big-endian digit list (used to prove `natToString` injective). -/
def decodeDigits (l : List Char) : ℕ :=
  l.foldl (fun a c => 10 * a + (c.toNat - 48)) 0

/-! ## Python `float()` conversion, modelled on strings

Models Python's `float(s)` on ordinary decimal literals: optional surrounding
whitespace, optional sign, digits with an optional decimal point, optional
exponent.  (The special inputs `inf`/`nan` and digit-group underscores, which
no gradebook cell uses, are treated as unparseable.) -/

/-- Value of a digit list read most-significant first. -/
def digitsVal (l : List Char) : ℕ :=
  l.foldl (fun a c => 10 * a + (c.toNat - 48)) 0

/-- Parsing: `pyFloat? s` is `some q` iff Python `float(s)` succeeds, with
value `q`. -/
def pyFloat? (s : String) : Option ℚ :=
  let cs := (pyStrip s).toList
  let signed : ℚ × List Char :=
    match cs with
    | '+' :: t => (1, t)
    | '-' :: t => (-1, t)
    | t => (1, t)
  let ipSplit := signed.2.span (fun c => c.isDigit)
  let fpSplit : List Char × List Char :=
    match ipSplit.2 with
    | '.' :: t => t.span (fun c => c.isDigit)
    | t => ([], t)
  if ipSplit.1 = [] ∧ fpSplit.1 = [] then none
  else
    let mant : ℚ :=
      signed.1 * ((digitsVal ipSplit.1 : ℚ) +
        (digitsVal fpSplit.1 : ℚ) / (10 : ℚ) ^ fpSplit.1.length)
    match fpSplit.2 with
    | [] => some mant
    | c :: t =>
      if c = 'e' ∨ c = 'E' then
        let esigned : ℤ × List Char :=
          match t with
          | '+' :: u => (1, u)
          | '-' :: u => (-1, u)
          | u => (1, u)
        if esigned.2 ≠ [] ∧ esigned.2.all (fun d => d.isDigit) then
          some (mant * (10 : ℚ) ^ (esigned.1 * (digitsVal esigned.2 : ℤ)))
        else none
      else none

/-! ## Score normalization (`create_student_excel`, lines 311–325) -/

/-- The excused test of the code:
`pd.notna(cell_value) and str(cell_value).strip().upper() == 'E'`.
A numeric cell renders as digits (with sign/point), never as `"E"`, and a
missing cell is rejected by `pd.notna`, so only string cells can pass. -/
def isExcusedCell : CellVal → Bool
  | .na => false
  | .str s => pyUpper (pyStrip s) == "E"
  | .num _ => false

/-- The earned-points value of a non-excused cell:
`float(cell_value) if pd.notna(cell_value) and cell_value != '' else 0`,
with `except (ValueError, TypeError): grade = 0`. -/
def earnedScore : CellVal → ℚ
  | .na => 0
  | .str s => if s = "" then 0 else (pyFloat? s).getD 0
  | .num q => q

/-- A normalized score: the excused sentinel or a numeric earned value. -/
inductive Grade where
  | excused : Grade
  | score : ℚ → Grade
deriving DecidableEq

/-- Score normalization for one grade cell (excused test first, then numeric
conversion with the silent default to 0). -/
def normalizeGrade (cell : CellVal) : Grade :=
  if isExcusedCell cell then .excused else .score (earnedScore cell)

/-- Max-points resolution: `item_max_points.get(col, default_max_points)`. -/
def resolveMax (itemMax : List (String × ℚ)) (col : String) (default : ℚ) : ℚ :=
  (itemMax.lookup col).getD default

/-- Attendance normalization (`create_attendance_excel`, lines 632–637):
`float(row[date_col]) if pd.notna(...) and row[date_col] != '' else 0`, with
`except → 0`.  The subsequent `int(grade) if grade in [0, 1] else grade` only
changes the Python type of the values 0 and 1, not the value, so the model
omits it. -/
def attendanceGrade : CellVal → ℚ
  | .na => 0
  | .str s => if s = "" then 0 else (pyFloat? s).getD 0
  | .num q => q

/-! ## Column classifier (`categorize_columns`, lines 151–175) -/

/-- Python's `needle in hay` substring test. -/
def pyIn (needle hay : String) : Bool :=
  (List.range (hay.toList.length + 1)).any
    (fun i => (hay.toList.drop i).take needle.toList.length == needle.toList)

/-- One column's scan over the keyword map, modelling the `found_category`
variable of the code.  Python's `None` and `""` are both falsy and
`found_category` is only ever tested for truthiness, so both are modelled by
`""`: after the inner keyword loop the code only breaks out of the category
loop when `found_category` is truthy, hence a category whose *name* is the
empty string never stops the scan even when one of its keywords matches. -/
def findCategoryAux (colLower : String) (found : String) :
    List (String × List String) → String
  | [] => found
  | (cat, kws) :: rest =>
    let fnd := if kws.any (fun kw => pyIn (pyLower kw) colLower) then cat else found
    if fnd = "" then findCategoryAux colLower fnd rest else fnd

/-- Append `col` to the bucket of `cat`, inserting the bucket at the end on
first use (Python dict insertion order). -/
def addToCat (m : List (String × List String)) (cat col : String) :
    List (String × List String) :=
  match m with
  | [] => [(cat, [col])]
  | (c, cs) :: rest =>
    if c = cat then (c, cs ++ [col]) :: rest else (c, cs) :: addToCat rest cat col

/-- Process the columns left to right, accumulating the categorized buckets and
the uncategorized list. -/
def categorizeAux (km : List (String × List String))
    (acc : List (String × List String) × List String) :
    List String → List (String × List String) × List String
  | [] => acc
  | col :: cols =>
    let f := findCategoryAux (pyLower col) "" km
    categorizeAux km
      (if f = "" then (acc.1, acc.2 ++ [col]) else (addToCat acc.1 f col, acc.2))
      cols

/-- The classifier `categorize_columns(columns, category_keywords)`. -/
def categorize (cols : List String) (km : List (String × List String)) :
    List (String × List String) × List String :=
  categorizeAux km ([], []) cols

/-- Follows the spec's words, for comparison with `findCategoryAux`: the column
belongs to the first category, in configured order, for which any keyword is a
case-insensitive substring of the column name. -/
def specFirstCategory (colLower : String) :
    List (String × List String) → Option String
  | [] => none
  | (cat, kws) :: rest =>
    if kws.any (fun kw => pyIn (pyLower kw) colLower) then some cat
    else specFirstCategory colLower rest

/-! ## Aggregation (`create_student_excel`, lines 304–364 and 376–435) -/

/-- Earned/possible sums of a list of items `(column name, cell)`: excused
items contribute to neither sum, every other item (zero scores included)
contributes its earned value and its resolved max points. -/
def categorySums (itemMax : List (String × ℚ)) (default : ℚ)
    (items : List (String × CellVal)) : ℚ × ℚ :=
  items.foldl
    (fun acc it =>
      match normalizeGrade it.2 with
      | .excused => acc
      | .score g => (acc.1 + g, acc.2 + resolveMax itemMax it.1 default))
    (0, 0)

/-- The category percentage: computed only when at least one non-excused item
exists (the code's `if category_grades and category_max:` — the two lists are
filled in lockstep, one entry per non-excused item), with the divide-by-zero
guard `if total_possible > 0 else 0`. -/
def categoryPercentage (itemMax : List (String × ℚ)) (default : ℚ)
    (items : List (String × CellVal)) : Option ℚ :=
  if items.any (fun it => !(isExcusedCell it.2)) then
    some
      (if 0 < (categorySums itemMax default items).2 then
        (categorySums itemMax default items).1 /
          (categorySums itemMax default items).2 * 100
      else 0)
  else none

/-- Follows the spec's words, for comparison with `categoryPercentage`: a
percentage for every category with at least one column, equal to the
non-excused earned/possible ratio ×100, and 0 when the possible sum is 0. -/
def specCategoryPercentageAll (itemMax : List (String × ℚ)) (default : ℚ)
    (items : List (String × CellVal)) : Option ℚ :=
  if items ≠ [] then
    some
      (if 0 < (categorySums itemMax default items).2 then
        (categorySums itemMax default items).1 /
          (categorySums itemMax default items).2 * 100
      else 0)
  else none

/-- Final weighted grade (lines 482–501): iterate the computed category
percentages in order; `weight = category_weights.get(category, 0)`;
`weighted = avg*weight/100 if weight > 0 else 0`; accumulate the weighted sum
and the sum of the weights of the iterated categories. -/
def finalGrade (weights : List (String × ℚ)) (avgs : List (String × ℚ)) :
    ℚ × ℚ :=
  avgs.foldl
    (fun acc p =>
      let w := (weights.lookup p.1).getD 0
      (acc.1 + (if 0 < w then p.2 * w / 100 else 0), acc.2 + w))
    (0, 0)

/-! ## Report layout (`create_student_excel`, lines 259–528)

The sheet body is modelled as the ordered list of rows the code writes, with
the cell values, banner texts and tri-state fills; styling constants that no
claim mentions (fonts, borders, merges, column widths) are abstracted. -/

/-- Rounding to 2 decimal places, modelling Python's `round(x, 2)`
(round-half-to-even). -/
def roundHalfEven (q : ℚ) : ℤ :=
  if q - (⌊q⌋ : ℚ) < 1 / 2 then ⌊q⌋
  else if (1 : ℚ) / 2 < q - (⌊q⌋ : ℚ) then ⌊q⌋ + 1
  else if 2 ∣ ⌊q⌋ then ⌊q⌋ else ⌊q⌋ + 1

/-- Python `round(x, 2)`. -/
def round2 (q : ℚ) : ℚ := (roundHalfEven (q * 100) : ℚ) / 100

/-- A displayed cell value: a string literal or a number. -/
inductive Disp where
  | s : String → Disp
  | n : ℚ → Disp
deriving DecidableEq

/-- The tri-state item fill: `excused_fill` (amber), `zero_score_fill` (red),
`score_fill` (green). -/
inductive Fill where
  | amber | red | green
deriving DecidableEq

/-- One row of a student sheet. -/
inductive LRow where
  | labelValue : String → String → LRow
  | header3 : String → String → String → LRow
  | catBanner : String → LRow
  | item : String → Disp → Disp → Fill → LRow
  | avgRow : String → ℚ → LRow
  | wBanner : String → LRow
  | wHeader : String → String → String → String → LRow
  | wRow : String → ℚ → ℚ → ℚ → LRow
  | wFinal : String → ℚ → ℚ → LRow
  | excusedRow : String → ℕ → LRow
deriving DecidableEq

/-- Category default max points: `category_max_points.get(category, 100)`. -/
def catMaxOf (catMax : List (String × ℚ)) (c : String) : ℚ :=
  (catMax.lookup c).getD 100

/-- The cell of column `c` in a student's row. -/
def getCell (row : List (String × CellVal)) (c : String) : CellVal :=
  (row.lookup c).getD .na

/-- The `(column, cell)` items of one category for one student. -/
def categoryItems (row : List (String × CellVal)) (cols : List String) :
    List (String × CellVal) :=
  cols.map (fun c => (c, getCell row c))

/-- The item row written for one grade cell (lines 327–356): an excused item
shows the literal `'E'` as its score and the literal `"Excused"` as its max
points, with the amber fill; otherwise the numeric grade and resolved max
points are shown, red for a zero grade and green for any other grade. -/
def itemRow (itemMax : List (String × ℚ)) (default : ℚ) (col : String)
    (cell : CellVal) : LRow :=
  if isExcusedCell cell then .item col (.s "E") (.s "Excused") .amber
  else
    .item col (.n (earnedScore cell)) (.n (resolveMax itemMax col default))
      (if earnedScore cell = 0 then .red else .green)

/-- The ordered `category_averages` mapping: one entry per category (classifier
order, then `"Other"`) that computed a percentage. -/
def avgsList (itemMax catMax : List (String × ℚ)) (row : List (String × CellVal))
    (categorized : List (String × List String)) (uncategorized : List String) :
    List (String × ℚ) :=
  (categorized.filterMap (fun p =>
    (categoryPercentage itemMax (catMaxOf catMax p.1)
      (categoryItems row p.2)).map (fun q => (p.1, q))))
  ++ (if uncategorized ≠ [] then
        match categoryPercentage itemMax (catMaxOf catMax "Other")
            (categoryItems row uncategorized) with
        | some q => [("Other", q)]
        | none => []
      else [])

/-- The `total_excused` counter for one student. -/
def excusedCount (row : List (String × CellVal))
    (categorized : List (String × List String)) (uncategorized : List String) :
    ℕ :=
  ((categorized.flatMap (fun p => categoryItems row p.2))
      ++ categoryItems row uncategorized).countP (fun it => isExcusedCell it.2)

/-- One row of the weighted-grades table (lines 486–502). -/
def wRowOf (weights : List (String × ℚ)) (p : String × ℚ) : LRow :=
  .wRow p.1 (round2 p.2) ((weights.lookup p.1).getD 0)
    (round2 (if 0 < (weights.lookup p.1).getD 0 then
      p.2 * ((weights.lookup p.1).getD 0) / 100 else 0))

/-- The full body of one student's sheet, in the order the code writes it:
identity block, column headers, per-category banners and item rows, the
`OTHER` section, the optional category-averages section, the weighted-grades
section (only when both `category_weights` and `category_averages` are
non-empty), and the excused summary. -/
def studentSheet (itemMax catMax weights : List (String × ℚ)) (showAvgs : Bool)
    (categorized : List (String × List String)) (uncategorized : List String)
    (idS fnS lnS : String) (row : List (String × CellVal)) : List LRow :=
  [.labelValue "ID:" idS, .labelValue "First Name:" fnS,
   .labelValue "Last Name:" lnS,
   .header3 "Categories" "Score" "Max Points"]
  ++ categorized.flatMap (fun p =>
      .catBanner (pyUpper p.1) ::
        (categoryItems row p.2).map
          (fun it => itemRow itemMax (catMaxOf catMax p.1) it.1 it.2))
  ++ (if uncategorized ≠ [] then
        .catBanner "OTHER" ::
          (categoryItems row uncategorized).map
            (fun it => itemRow itemMax (catMaxOf catMax "Other") it.1 it.2)
      else [])
  ++ (if showAvgs ∧ avgsList itemMax catMax row categorized uncategorized ≠ [] then
        .catBanner "CATEGORY AVERAGES (%)" ::
          (avgsList itemMax catMax row categorized uncategorized).map
            (fun p => .avgRow p.1 (round2 p.2))
      else [])
  ++ (if weights ≠ [] ∧ avgsList itemMax catMax row categorized uncategorized ≠ [] then
        [.wBanner "WEIGHTED GRADES",
         .wHeader "Category" "Score (%)" "Weight (%)" "Weighted Score"]
        ++ (avgsList itemMax catMax row categorized uncategorized).map
            (wRowOf weights)
        ++ [.wFinal "FINAL WEIGHTED GRADE"
            (round2 (finalGrade weights
              (avgsList itemMax catMax row categorized uncategorized)).1)
            (finalGrade weights
              (avgsList itemMax catMax row categorized uncategorized)).2]
      else [])
  ++ (if 0 < excusedCount row categorized uncategorized then
        [.excusedRow "EXCUSED ASSIGNMENTS" (excusedCount row categorized uncategorized)]
      else [])

/-! ## Sheet-name allocation (`create_student_excel`, lines 232–257) -/

/-- The Excel-forbidden characters stripped from sheet names: `'[]:*?/\\'`. -/
def excelBad : List Char := ['[', ']', ':', '*', '?', '/', '\\']

/-- Collision-suffixed name `f"{original_name[:28]}_{counter}"`. -/
def collisionName (orig : String) (n : ℕ) : String :=
  pyTake orig 28 ++ "_" ++ natToString n

/-- The collision `while` loop of the code, fuel-structured: starting at
counter `n`, return the first `collisionName orig k` (`k ≥ n`) not in `used`.
The fuel case is unreachable for the fuel the caller supplies (see
`searchFrom_spec`). -/
def searchFrom (orig : String) (used : List String) : ℕ → ℕ → String
  | n, 0 => collisionName orig n
  | n, fuel + 1 =>
    if collisionName orig n ∈ used then searchFrom orig used (n + 1) fuel
    else collisionName orig n

/-- Collision resolution: the candidate itself when unused, otherwise the
first fresh `collisionName` with counter starting at 1.  `used.length + 1`
counters always suffice, since the `collisionName`s are pairwise distinct. -/
def uniqueName (orig : String) (used : List String) : String :=
  if orig ∈ used then searchFrom orig used 1 (used.length + 1) else orig

/-- The sheet-name candidate before collision resolution: build
`f"{last_name}, {first_name}"`, truncate to 31 characters, strip the forbidden
characters, and fall back to `f"Student_{idx}"` when empty or `", "`. -/
def candidateName (lastName firstName : String) (idx : ℕ) : String :=
  let safe := String.mk
    ((pyTake (lastName ++ ", " ++ firstName) 31).toList.filter
      (fun c => c ∉ excelBad))
  if safe = "" ∨ safe = ", " then "Student_" ++ natToString idx else safe

/-- The final sheet name for one student row. -/
def allocate (lastName firstName : String) (idx : ℕ) (used : List String) :
    String :=
  uniqueName (candidateName lastName firstName idx) used

/-! ## The per-student generation loop (`create_student_excel`, lines 225–257)

Only the fields that decide whether a sheet is produced and what it is named
are modelled per student; `idx` is the dataframe row label (preserved by the
sort). -/

/-- One dataset row, reduced to what the loop consumes. -/
structure Student where
  idx : ℕ
  sid : CellVal
  firstName : CellVal
  lastName : CellVal
  cells : List (String × CellVal)
deriving DecidableEq

/-- Fractional decimal digits of `q ∈ [0,1)`, at most `fuel` of them. -/
def fracDigits : ℕ → ℚ → List Char
  | 0, _ => []
  | fuel + 1, q =>
    if q = 0 then []
    else digitChar (⌊q * 10⌋).toNat :: fracDigits fuel (q * 10 - (⌊q * 10⌋ : ℚ))

/-- Python `str(float)` for a numeric cell.  Python renders the shortest
round-tripping decimal; the model renders up to 20 fractional digits, which
agrees on every decimally-short value.  The claims only rely on a numeric
cell rendering as sign/digits/point (never empty, never whitespace, never
`"E"`). -/
def pyStrNum (q : ℚ) : String :=
  (if q < 0 then "-" else "") ++ natToString (⌊|q|⌋).toNat ++ "." ++
    (if fracDigits 20 (|q| - (⌊|q|⌋ : ℚ)) = [] then "0"
     else String.mk (fracDigits 20 (|q| - (⌊|q|⌋ : ℚ))))

/-- Rendering `str(cell)` as pandas `astype(str)` does it (`NaN` → `"nan"`). -/
def pyStr : CellVal → String
  | .na => "nan"
  | .str s => s
  | .num q => pyStrNum q

/-- The extracted identity string:
`str(row[c]).strip() if pd.notna(row[c]) else ""`. -/
def cellStrTrim : CellVal → String
  | .na => ""
  | .str s => pyStrip s
  | .num q => pyStrip (pyStrNum q)

/-- A row is kept iff at least one of ID / first name / last name is non-empty
after trimming (lines 237–239 skip the all-empty rows). -/
def isValid (s : Student) : Bool :=
  !(cellStrTrim s.sid == "" && cellStrTrim s.firstName == ""
    && cellStrTrim s.lastName == "")

/-- The sort key of `df_sorted`: the last-name column as a string, lower-cased
(lines 225–229). -/
def sortKey (s : Student) : String := pyLower (pyStr s.lastName)

/-- Keyed insertion used by `sortStudents`. -/
def insertSorted (x : Student) : List Student → List Student
  | [] => [x]
  | y :: ys =>
    if sortKey x ≤ sortKey y then x :: y :: ys else y :: insertSorted x ys

/-- The sort `df.sort_values` on the lower-cased last name, modelled as an
insertion
sort (the code's library sort is some key-sorted permutation; no claim under
study depends on the order of key-equal rows). -/
def sortStudents : List Student → List Student
  | [] => []
  | x :: xs => insertSorted x (sortStudents xs)

/-- The sheet names produced by the per-student loop, threading the workbook's
set of existing sheet names through `allocate`: invalid rows are skipped,
every produced sheet's name is inserted into the used set. -/
def sheetNamesAux : List Student → List String → List String
  | [], _ => []
  | s :: rest, used =>
    if isValid s then
      allocate (cellStrTrim s.lastName) (cellStrTrim s.firstName) s.idx used ::
        sheetNamesAux rest
          (allocate (cellStrTrim s.lastName) (cellStrTrim s.firstName) s.idx used
            :: used)
    else sheetNamesAux rest used

/-- All sheet names of one generation run (the workbook starts empty after the
default sheet is removed). -/
def gradebookSheetNames (rows : List Student) : List String :=
  sheetNamesAux (sortStudents rows) []

/-! ## Support lemmas for the allocator and the loop -/

theorem digitChar_decode : ∀ d, d < 10 → (digitChar d).toNat - 48 = d := by decide

theorem decodeDigits_append (l : List Char) (c : Char) :
    decodeDigits (l ++ [c]) = 10 * decodeDigits l + (c.toNat - 48) := by
  simp [decodeDigits, List.foldl_append]

theorem decode_toDigitsAux : ∀ fuel n, n < fuel →
    decodeDigits (toDigitsAux fuel n) = n := by
  intro fuel
  induction fuel with
  | zero => intro n h; omega
  | succ f ih =>
    intro n h
    by_cases h10 : n < 10
    · simp only [toDigitsAux, if_pos h10, decodeDigits, List.foldl]
      have := digitChar_decode n h10
      omega
    · have hn0 : 0 < n := by omega
      have hdiv : n / 10 < n := Nat.div_lt_self hn0 (by norm_num)
      have hf : n / 10 < f := by omega
      simp only [toDigitsAux, if_neg h10, decodeDigits_append, ih (n / 10) hf]
      have hmod : n % 10 < 10 := Nat.mod_lt _ (by norm_num)
      have := digitChar_decode (n % 10) hmod
      omega

theorem natToString_injective : Function.Injective natToString := by
  intro m n h
  have hdata : toDigitsAux (m + 1) m = toDigitsAux (n + 1) n :=
    congrArg String.data h
  have := decode_toDigitsAux (m + 1) m (by omega)
  rw [hdata, decode_toDigitsAux (n + 1) n (by omega)] at this
  omega

theorem data_append (a b : String) : (a ++ b).data = a.data ++ b.data := rfl

theorem collisionName_injective (orig : String) :
    Function.Injective (collisionName orig) := by
  intro m n h
  apply natToString_injective
  have hdata := congrArg String.data h
  simp only [collisionName, data_append, List.append_assoc] at hdata
  have h1 := List.append_cancel_left hdata
  have h2 := List.append_cancel_left h1
  exact congrArg String.mk h2

theorem exists_fresh (orig : String) (used : List String) :
    ∃ n, 1 ≤ n ∧ n ≤ used.length + 1 ∧ collisionName orig n ∉ used := by
  by_contra hcon
  push_neg at hcon
  have hsub : (Finset.Icc 1 (used.length + 1)).image (collisionName orig) ⊆
      used.toFinset := by
    intro x hx
    rw [Finset.mem_image] at hx
    obtain ⟨n, hn, rfl⟩ := hx
    rw [Finset.mem_Icc] at hn
    exact List.mem_toFinset.2 (hcon n hn.1 hn.2)
  have hcard1 :
      ((Finset.Icc 1 (used.length + 1)).image (collisionName orig)).card =
        used.length + 1 := by
    rw [Finset.card_image_of_injective _ (collisionName_injective orig),
      Nat.card_Icc]
    omega
  have hcard2 := Finset.card_le_card hsub
  have hcard3 := List.toFinset_card_le used
  omega

theorem searchFrom_spec (orig : String) (used : List String) :
    ∀ fuel n, (∃ k, n ≤ k ∧ k < n + fuel ∧ collisionName orig k ∉ used) →
    ∃ N, searchFrom orig used n fuel = collisionName orig N ∧ n ≤ N ∧
      collisionName orig N ∉ used ∧
      ∀ m, n ≤ m → m < N → collisionName orig m ∈ used := by
  intro fuel
  induction fuel with
  | zero =>
    intro n ⟨k, h1, h2, _⟩
    omega
  | succ f ih =>
    intro n ⟨k, h1, h2, h3⟩
    by_cases hn : collisionName orig n ∈ used
    · have hkn : k ≠ n := by
        intro he
        exact h3 (he ▸ hn)
      obtain ⟨N, hEq, hge, hfresh, hmin⟩ :=
        ih (n + 1) ⟨k, by omega, by omega, h3⟩
      refine ⟨N, ?_, by omega, hfresh, ?_⟩
      · rw [searchFrom, if_pos hn]
        exact hEq
      · intro m hm1 hm2
        rcases Nat.eq_or_lt_of_le hm1 with he | hlt
        · exact he ▸ hn
        · exact hmin m hlt hm2
    · refine ⟨n, ?_, le_refl n, hn, fun m hm1 hm2 => absurd hm2 (by omega)⟩
      rw [searchFrom, if_neg hn]

theorem uniqueName_spec (orig : String) (used : List String) (h : orig ∈ used) :
    ∃ N, uniqueName orig used = collisionName orig N ∧ 1 ≤ N ∧
      collisionName orig N ∉ used ∧
      ∀ m, 1 ≤ m → m < N → collisionName orig m ∈ used := by
  obtain ⟨k, h1, h2, h3⟩ := exists_fresh orig used
  have hs := searchFrom_spec orig used (used.length + 1) 1 ⟨k, h1, by omega, h3⟩
  rw [uniqueName, if_pos h]
  exact hs

theorem uniqueName_not_mem (orig : String) (used : List String) :
    uniqueName orig used ∉ used := by
  by_cases h : orig ∈ used
  · obtain ⟨N, hEq, _, hfresh, _⟩ := uniqueName_spec orig used h
    rw [hEq]
    exact hfresh
  · rw [uniqueName, if_neg h]
    exact h

theorem sheetNamesAux_length : ∀ (rows : List Student) (used : List String),
    (sheetNamesAux rows used).length = (rows.filter isValid).length := by
  intro rows
  induction rows with
  | nil => intro used; rfl
  | cons s rest ih =>
    intro used
    by_cases hv : isValid s
    · simp [sheetNamesAux, hv, List.filter_cons, ih]
    · simp [sheetNamesAux, hv, List.filter_cons, ih]

theorem sheetNamesAux_nodup : ∀ (rows : List Student) (used : List String),
    (sheetNamesAux rows used).Nodup ∧
      ∀ x ∈ sheetNamesAux rows used, x ∉ used := by
  intro rows
  induction rows with
  | nil => intro used; exact ⟨List.nodup_nil, by intro x hx; cases hx⟩
  | cons s rest ih =>
    intro used
    by_cases hv : isValid s
    · simp only [sheetNamesAux, hv, if_pos]
      set nm := allocate (cellStrTrim s.lastName) (cellStrTrim s.firstName)
        s.idx used with hnm
      obtain ⟨hnd, hmem⟩ := ih (nm :: used)
      have hfresh : nm ∉ used := uniqueName_not_mem _ used
      refine ⟨List.nodup_cons.2 ⟨fun hx => ?_, hnd⟩, ?_⟩
      · exact (hmem nm hx) (List.mem_cons_self nm used)
      · intro x hx
        rcases List.mem_cons.1 hx with rfl | hx2
        · exact hfresh
        · intro hxu
          exact (hmem x hx2) (List.mem_cons.2 (Or.inr hxu))
    · simp only [sheetNamesAux, hv, if_neg, Bool.false_eq_true, not_false_iff]
      exact ih used

theorem insertSorted_perm (x : Student) :
    ∀ l : List Student, (insertSorted x l).Perm (x :: l) := by
  intro l
  induction l with
  | nil => exact List.Perm.refl _
  | cons y ys ih =>
    by_cases h : sortKey x ≤ sortKey y
    · rw [insertSorted, if_pos h]
    · rw [insertSorted, if_neg h]
      exact (ih.cons y).trans (List.Perm.swap x y ys)

theorem sortStudents_perm : ∀ l : List Student, (sortStudents l).Perm l := by
  intro l
  induction l with
  | nil => exact List.Perm.refl _
  | cons x xs ih =>
    exact (insertSorted_perm x (sortStudents xs)).trans (ih.cons x)

/-! ## Support lemmas for the aggregator -/

theorem categorySums_eq (itemMax : List (String × ℚ)) (d : ℚ) :
    ∀ (items : List (String × CellVal)) (a b : ℚ),
    items.foldl
      (fun acc it =>
        match normalizeGrade it.2 with
        | .excused => acc
        | .score g => (acc.1 + g, acc.2 + resolveMax itemMax it.1 d))
      (a, b) =
    (a + ((items.filter (fun it => !(isExcusedCell it.2))).map
        (fun it => earnedScore it.2)).sum,
     b + ((items.filter (fun it => !(isExcusedCell it.2))).map
        (fun it => resolveMax itemMax it.1 d)).sum) := by
  intro items
  induction items with
  | nil => intro a b; simp
  | cons it rest ih =>
    intro a b
    rw [List.foldl_cons]
    by_cases h : isExcusedCell it.2
    · rw [show (match normalizeGrade it.2 with
          | Grade.excused => ((a : ℚ), (b : ℚ))
          | Grade.score g => (a + g, b + resolveMax itemMax it.1 d)) = (a, b) by
        rw [normalizeGrade, if_pos h], ih]
      simp [List.filter_cons, h]
    · rw [show (match normalizeGrade it.2 with
          | Grade.excused => ((a : ℚ), (b : ℚ))
          | Grade.score g => (a + g, b + resolveMax itemMax it.1 d)) =
            (a + earnedScore it.2, b + resolveMax itemMax it.1 d) by
        rw [normalizeGrade, if_neg h], ih]
      simp only [List.filter_cons, h, Bool.not_false, if_true, List.map_cons,
        List.sum_cons, Prod.mk.injEq]
      constructor <;> ring

theorem categorySums_filter (itemMax : List (String × ℚ)) (d : ℚ)
    (items : List (String × CellVal)) :
    categorySums itemMax d items =
      (((items.filter (fun it => !(isExcusedCell it.2))).map
          (fun it => earnedScore it.2)).sum,
       ((items.filter (fun it => !(isExcusedCell it.2))).map
          (fun it => resolveMax itemMax it.1 d)).sum) := by
  rw [categorySums, categorySums_eq]
  simp

theorem finalGrade_foldl (weights : List (String × ℚ)) :
    ∀ (avgs : List (String × ℚ)) (a b : ℚ),
    avgs.foldl
      (fun acc p =>
        let w := (weights.lookup p.1).getD 0
        (acc.1 + (if 0 < w then p.2 * w / 100 else 0), acc.2 + w))
      (a, b) =
    (a + (avgs.map (fun p =>
        if 0 < (weights.lookup p.1).getD 0 then
          p.2 * ((weights.lookup p.1).getD 0) / 100
        else 0)).sum,
     b + (avgs.map (fun p => (weights.lookup p.1).getD 0)).sum) := by
  intro avgs
  induction avgs with
  | nil => intro a b; simp
  | cons p rest ih =>
    intro a b
    rw [List.foldl_cons, ih]
    simp only [List.map_cons, List.sum_cons, Prod.mk.injEq]
    constructor <;> ring

theorem lookup_nonneg (weights : List (String × ℚ))
    (hw : ∀ p ∈ weights, 0 ≤ p.2) (c : String) :
    0 ≤ (weights.lookup c).getD 0 := by
  cases h : weights.lookup c with
  | none => simp
  | some w =>
    simp only [Option.getD_some]
    obtain ⟨l₁, l₂, rfl, _⟩ := List.lookup_eq_some_iff.1 h
    exact hw (c, w) (by simp)

/-! ## The claims -/

/-- C1 counterexample: a category whose single column is excused gets **no**
percentage from the code (`category_grades` stays empty, so the average is
never computed), while the claim — a percentage for every category with at
least one column, equal to 0 when the non-excused max-points sum is 0 —
demands the percentage 0. -/
theorem categoryPercentage_allExcused_cex :
    categoryPercentage [] 100 [("HW1", CellVal.str "E")] = none ∧
    specCategoryPercentageAll [] 100 [("HW1", CellVal.str "E")] = some 0 :=
  ⟨rfl, rfl⟩

/-- C1 (amended): for every category with at least one **non-excused** item,
the percentage equals (sum of earned) / (sum of max) × 100 over the
non-excused items (zero-valued ones included in both sums, excused ones in
neither), and is 0 when the max-points sum is not positive. -/
theorem categoryPercentage_nonexcused_spec (itemMax : List (String × ℚ))
    (d : ℚ) (items : List (String × CellVal))
    (h : items.any (fun it => !(isExcusedCell it.2)) = true) :
    categoryPercentage itemMax d items =
      some
        (if 0 < ((items.filter (fun it => !(isExcusedCell it.2))).map
              (fun it => resolveMax itemMax it.1 d)).sum then
          ((items.filter (fun it => !(isExcusedCell it.2))).map
              (fun it => earnedScore it.2)).sum /
            ((items.filter (fun it => !(isExcusedCell it.2))).map
              (fun it => resolveMax itemMax it.1 d)).sum * 100
        else 0) := by
  rw [categoryPercentage, if_pos h, categorySums_filter]

/-- C1 witness: `[90/100, 0/100]` yields 45 and `[90/100, Excused]` yields
90, through `categoryPercentage_nonexcused_spec`. -/
theorem categoryPercentage_nonexcused_spec_w :
    ([("Exam 1", CellVal.num 90), ("Exam 2", CellVal.num 0)].any
        (fun it => !(isExcusedCell it.2)) = true) ∧
    categoryPercentage [] 100
        [("Exam 1", CellVal.num 90), ("Exam 2", CellVal.num 0)] = some 45 ∧
    categoryPercentage [] 100
        [("Exam 1", CellVal.num 90), ("Exam 2", CellVal.str "E")] = some 90 := by
  refine ⟨rfl, ?_, ?_⟩
  · exact (categoryPercentage_nonexcused_spec [] 100
      [("Exam 1", CellVal.num 90), ("Exam 2", CellVal.num 0)] rfl).trans
      (by with_unfolding_all rfl)
  · exact (categoryPercentage_nonexcused_spec [] 100
      [("Exam 1", CellVal.num 90), ("Exam 2", CellVal.str "E")] rfl).trans
      (by with_unfolding_all rfl)

/-- C2: the final weighted grade iterates exactly the categories that computed
a percentage, adds `percentage × weight / 100` for each, and also accumulates
the total weight applied (the weights, 0–100 per the data model, are
non-negative). -/
theorem finalGrade_spec (weights avgs : List (String × ℚ))
    (hw : ∀ p ∈ weights, 0 ≤ p.2) :
    finalGrade weights avgs =
      ((avgs.map (fun p =>
          p.2 * ((weights.lookup p.1).getD 0) / 100)).sum,
       (avgs.map (fun p => (weights.lookup p.1).getD 0)).sum) := by
  rw [finalGrade, finalGrade_foldl]
  simp only [zero_add]
  congr 1
  refine congrArg List.sum ?_
  apply List.map_congr_left
  intro p _
  rcases lt_or_eq_of_le (lookup_nonneg weights hw p.1) with hlt | heq
  · rw [if_pos hlt]
  · rw [← heq]
    simp

/-- C2 witness: `{A: 80% at weight 50, B: 60% at weight 50}` gives a final of
70 with total weight 100, through `finalGrade_spec`. -/
theorem finalGrade_spec_w :
    (∀ p ∈ [(("A" : String), (50 : ℚ)), ("B", 50)], 0 ≤ p.2) ∧
    finalGrade [("A", 50), ("B", 50)] [("A", 80), ("B", 60)] = (70, 100) := by
  have hw : ∀ p ∈ [(("A" : String), (50 : ℚ)), ("B", 50)], 0 ≤ p.2 := by
    intro p hp
    rcases List.mem_cons.1 hp with rfl | hp2
    · norm_num
    · rcases List.mem_cons.1 hp2 with rfl | hp3
      · norm_num
      · cases hp3
  refine ⟨hw, ?_⟩
  exact (finalGrade_spec [("A", 50), ("B", 50)] [("A", 80), ("B", 60)] hw).trans
    (by with_unfolding_all rfl)

/-- C4: score normalization applies, in order: the excused test on the
trimmed upper-cased value; numeric conversion, whose success gives the earned
score; the silent default to 0 on failure or a missing/empty cell — and the
max points are the per-item override when present, else the category
default. -/
theorem normalizeGrade_spec (s : String) (itemMax : List (String × ℚ))
    (col : String) (d : ℚ) :
    (pyUpper (pyStrip s) = "E" → normalizeGrade (.str s) = .excused) ∧
    (pyUpper (pyStrip s) ≠ "E" → ∀ q, pyFloat? s = some q →
      normalizeGrade (.str s) = .score q) ∧
    (pyUpper (pyStrip s) ≠ "E" → pyFloat? s = none →
      normalizeGrade (.str s) = .score 0) ∧
    (normalizeGrade .na = .score 0) ∧
    (∀ m, itemMax.lookup col = some m → resolveMax itemMax col d = m) ∧
    (itemMax.lookup col = none → resolveMax itemMax col d = d) := by
  refine ⟨?_, ?_, ?_, rfl, ?_, ?_⟩
  · intro hE
    rw [normalizeGrade, if_pos (by simp [isExcusedCell, hE])]
  · intro hE q hq
    rw [normalizeGrade, if_neg (by simp [isExcusedCell, hE])]
    by_cases hs : s = ""
    · rw [hs] at hq
      cases hq.symm.trans (show pyFloat? "" = none from rfl)
    · simp [earnedScore, hs, hq]
  · intro hE hq
    rw [normalizeGrade, if_neg (by simp [isExcusedCell, hE])]
    by_cases hs : s = ""
    · simp [earnedScore, hs]
    · simp [earnedScore, hs, hq]
  · intro m hm
    simp [resolveMax, hm]
  · intro hm
    simp [resolveMax, hm]

/-- C4 witness: `"E"` → Excused, `"85"` → 85, `"abc"` → 0, and an override
`("HW1", 20)` beats the default 100, through `normalizeGrade_spec`. -/
theorem normalizeGrade_spec_w :
    normalizeGrade (.str "E") = .excused ∧
    normalizeGrade (.str "85") = .score 85 ∧
    normalizeGrade (.str "abc") = .score 0 ∧
    resolveMax [("HW1", 20)] "HW1" 100 = 20 ∧
    resolveMax [("HW1", 20)] "HW2" 100 = 100 := by
  refine ⟨(normalizeGrade_spec "E" [] "c" 0).1 rfl,
    (normalizeGrade_spec "85" [] "c" 0).2.1 (by decide) 85
      (by with_unfolding_all rfl),
    (normalizeGrade_spec "abc" [] "c" 0).2.2.1 (by decide) rfl,
    (normalizeGrade_spec "x" [("HW1", 20)] "HW1" 100).2.2.2.2.1 20 rfl,
    (normalizeGrade_spec "x" [("HW1", 20)] "HW2" 100).2.2.2.2.2 rfl⟩

/-- C9: attendance normalization passes every numeric value through unchanged
(no clamping to {0,1}) and maps unparseable or missing values to 0. -/
theorem attendanceGrade_spec (q : ℚ) (s : String) :
    attendanceGrade (.num q) = q ∧
    (∀ r, pyFloat? s = some r → attendanceGrade (.str s) = r) ∧
    (pyFloat? s = none → attendanceGrade (.str s) = 0) ∧
    attendanceGrade .na = 0 := by
  refine ⟨rfl, ?_, ?_, rfl⟩
  · intro r hr
    by_cases hs : s = ""
    · rw [hs] at hr
      cases hr.symm.trans (show pyFloat? "" = none from rfl)
    · simp [attendanceGrade, hs, hr]
  · intro hr
    by_cases hs : s = ""
    · simp [attendanceGrade, hs]
    · simp [attendanceGrade, hs, hr]

/-- C9 witness: `"0.5"` stays 0.5 while `"abc"` and `""` become 0, through
`attendanceGrade_spec`. -/
theorem attendanceGrade_spec_w :
    attendanceGrade (.str "0.5") = 1 / 2 ∧
    attendanceGrade (.str "abc") = 0 ∧
    attendanceGrade (.str "") = 0 ∧
    attendanceGrade (.num (1 / 2)) = 1 / 2 := by
  refine ⟨(attendanceGrade_spec 0 "0.5").2.1 (1 / 2)
      (by with_unfolding_all rfl),
    (attendanceGrade_spec 0 "abc").2.2.1 rfl,
    (attendanceGrade_spec 0 "").2.2.1 rfl,
    (attendanceGrade_spec (1 / 2) "x").1⟩

theorem findCategoryAux_firstMatch (cl : String) :
    ∀ km : List (String × List String), (∀ p ∈ km, p.1 ≠ "") →
    findCategoryAux cl "" km = (specFirstCategory cl km).getD "" := by
  intro km
  induction km with
  | nil => intro _; rfl
  | cons p rest ih =>
    intro h
    obtain ⟨cat, kws⟩ := p
    by_cases hm : kws.any (fun kw => pyIn (pyLower kw) cl) = true
    · have hcat : cat ≠ "" := h (cat, kws) (List.mem_cons_self _ _)
      simp only [findCategoryAux, specFirstCategory, hm, if_true, hcat,
        if_false, Option.getD_some, if_neg hcat]
    · simp only [findCategoryAux, specFirstCategory, hm, if_false,
        Bool.false_eq_true, if_true]
      exact ih (fun q hq => h q (List.mem_cons_of_mem _ hq))

theorem addToCat_flatMap_perm (cat col : String) :
    ∀ m : List (String × List String),
    ((addToCat m cat col).flatMap Prod.snd).Perm
      (col :: m.flatMap Prod.snd) := by
  intro m
  induction m with
  | nil => simp [addToCat]
  | cons p rest ih =>
    obtain ⟨c, cs⟩ := p
    by_cases h : c = cat
    · simp only [addToCat, if_pos h, List.flatMap_cons]
      rw [List.append_assoc]
      exact List.perm_middle
    · simp only [addToCat, if_neg h, List.flatMap_cons]
      exact (List.Perm.append_left cs ih).trans List.perm_middle

theorem categorizeAux_perm (km : List (String × List String)) :
    ∀ (cols : List String) (acc : List (String × List String) × List String),
    (((categorizeAux km acc cols).1.flatMap Prod.snd) ++
        (categorizeAux km acc cols).2).Perm
      ((acc.1.flatMap Prod.snd ++ acc.2) ++ cols) := by
  intro cols
  induction cols with
  | nil => intro acc; simp [categorizeAux]
  | cons col cols ih =>
    intro acc
    rw [categorizeAux]
    by_cases h : findCategoryAux (pyLower col) "" km = ""
    · rw [if_pos h]
      have := ih (acc.1, acc.2 ++ [col])
      refine this.trans ?_
      simp only [List.append_assoc, List.singleton_append]
      exact List.Perm.refl _
    · rw [if_neg h]
      have h1 := ih (addToCat acc.1 (findCategoryAux (pyLower col) "" km) col,
        acc.2)
      refine h1.trans ?_
      have h2 := addToCat_flatMap_perm (findCategoryAux (pyLower col) "" km)
        col acc.1
      exact ((h2.append_right acc.2).append_right cols).trans
        List.perm_middle.symm

/-- C3 counterexample: with a category whose *name* is the empty string, the
code's truthiness test `if found_category:` ignores the match — the column
`"abc"` matches the keyword `"a"` of the first (and only) category, the
spec-side first-match classifier assigns it there, yet `categorize_columns`
leaves it uncategorized. -/
theorem categorize_emptyname_cex :
    categorize ["abc"] [("", ["a"])] = ([], ["abc"]) ∧
    specFirstCategory (pyLower "abc") [("", ["a"])] = some "" :=
  ⟨by with_unfolding_all rfl, by with_unfolding_all rfl⟩

/-- C3 (amended): for keyword maps whose category names are all non-empty,
each column goes to the first category (in configured order) with a matching
keyword — `""` meaning none matched, hence uncategorized — every column ends
in exactly one bucket (the buckets and the uncategorized list together are a
permutation of the columns), and reordering the categories can change the
bucket of an ambiguous column (`"Final Exam Quiz"`). -/
theorem categorize_firstmatch_spec (km : List (String × List String))
    (h : ∀ p ∈ km, p.1 ≠ "") :
    (∀ cl, findCategoryAux cl "" km = (specFirstCategory cl km).getD "") ∧
    (∀ cols, (((categorize cols km).1.flatMap Prod.snd) ++
        (categorize cols km).2).Perm cols) ∧
    categorize ["Final Exam Quiz"] [("Exams", ["exam"]), ("Quizzes", ["quiz"])] =
      ([("Exams", ["Final Exam Quiz"])], []) ∧
    categorize ["Final Exam Quiz"] [("Quizzes", ["quiz"]), ("Exams", ["exam"])] =
      ([("Quizzes", ["Final Exam Quiz"])], []) := by
  refine ⟨fun cl => findCategoryAux_firstMatch cl km h, fun cols => ?_,
    by with_unfolding_all rfl, by with_unfolding_all rfl⟩
  have := categorizeAux_perm km cols ([], [])
  simpa [categorize] using this

/-- C3 witness: a concrete non-empty-named keyword map through
`categorize_firstmatch_spec`. -/
theorem categorize_firstmatch_spec_w :
    (∀ p ∈ [(("Exams" : String), ["exam"])], p.1 ≠ "") ∧
    findCategoryAux "final exam" "" [("Exams", ["exam"])] = "Exams" ∧
    (((categorize ["Final Exam", "zzz"] [("Exams", ["exam"])]).1.flatMap
          Prod.snd) ++
        (categorize ["Final Exam", "zzz"] [("Exams", ["exam"])]).2).Perm
      ["Final Exam", "zzz"] := by
  have hn : ∀ p ∈ [(("Exams" : String), ["exam"])], p.1 ≠ "" := by
    intro p hp
    rcases List.mem_cons.1 hp with rfl | hp2
    · simp
    · cases hp2
  have h := categorize_firstmatch_spec [("Exams", ["exam"])] hn
  exact ⟨hn, (h.1 "final exam").trans (by with_unfolding_all rfl),
    h.2.1 ["Final Exam", "zzz"]⟩

theorem itemRow_mem_sheet (itemMax catMax weights : List (String × ℚ))
    (showAvgs : Bool) (categorized : List (String × List String))
    (uncategorized : List String) (idS fnS lnS : String)
    (row : List (String × CellVal)) (cat : String) (cols : List String)
    (col : String) (hc : (cat, cols) ∈ categorized) (hcol : col ∈ cols) :
    itemRow itemMax (catMaxOf catMax cat) col (getCell row col) ∈
      studentSheet itemMax catMax weights showAvgs categorized uncategorized
        idS fnS lnS row := by
  have hB : itemRow itemMax (catMaxOf catMax cat) col (getCell row col) ∈
      categorized.flatMap (fun p =>
        LRow.catBanner (pyUpper p.1) ::
          (categoryItems row p.2).map
            (fun it => itemRow itemMax (catMaxOf catMax p.1) it.1 it.2)) :=
    List.mem_flatMap.2 ⟨(cat, cols), hc,
      List.mem_cons_of_mem _
        (List.mem_map_of_mem _ (List.mem_map_of_mem _ hcol))⟩
  rw [studentSheet]
  exact List.mem_append_left _ (List.mem_append_left _ (List.mem_append_left _
    (List.mem_append_left _ (List.mem_append_right _ hB))))

/-- C5 counterexample: the excused item's *score* cell holds the literal
`"E"` (the code writes `grade = 'E'` into column 2), not the literal
`"Excused"` — only the max-points cell holds `"Excused"`.  The full sheet of a
student with one excused assignment is computed, and the row the claim
describes is not in it. -/
theorem excused_display_cex :
    studentSheet [] [] [] false [("Assignments", ["HW1"])] [] "1" "John"
        "Smith" [("HW1", CellVal.str "E")] =
      [.labelValue "ID:" "1", .labelValue "First Name:" "John",
       .labelValue "Last Name:" "Smith",
       .header3 "Categories" "Score" "Max Points",
       .catBanner "ASSIGNMENTS",
       .item "HW1" (.s "E") (.s "Excused") .amber,
       .excusedRow "EXCUSED ASSIGNMENTS" 1] ∧
    LRow.item "HW1" (.s "Excused") (.s "Excused") .amber ∉
      studentSheet [] [] [] false [("Assignments", ["HW1"])] [] "1" "John"
        "Smith" [("HW1", CellVal.str "E")] := by
  have h : studentSheet [] [] [] false [("Assignments", ["HW1"])] [] "1"
      "John" "Smith" [("HW1", CellVal.str "E")] =
      [.labelValue "ID:" "1", .labelValue "First Name:" "John",
       .labelValue "Last Name:" "Smith",
       .header3 "Categories" "Score" "Max Points",
       .catBanner "ASSIGNMENTS",
       .item "HW1" (.s "E") (.s "Excused") .amber,
       .excusedRow "EXCUSED ASSIGNMENTS" 1] := by with_unfolding_all rfl
  refine ⟨h, ?_⟩
  rw [h]
  intro hmem
  simp at hmem

/-- C5 (amended): for every excused item the sheet contains the row showing
the item name, the literal `"E"` as the score, the literal `"Excused"` as the
max points, filled amber; a zero-score non-excused item's row is filled red
and a positive-score one green, both showing the numeric grade and resolved
max points. -/
theorem itemRow_tristate_spec (itemMax catMax weights : List (String × ℚ))
    (showAvgs : Bool) (categorized : List (String × List String))
    (uncategorized : List String) (idS fnS lnS : String)
    (row : List (String × CellVal)) (cat : String) (cols : List String)
    (col : String) (hc : (cat, cols) ∈ categorized) (hcol : col ∈ cols) :
    (isExcusedCell (getCell row col) = true →
      LRow.item col (.s "E") (.s "Excused") .amber ∈
        studentSheet itemMax catMax weights showAvgs categorized uncategorized
          idS fnS lnS row) ∧
    (isExcusedCell (getCell row col) = false →
      earnedScore (getCell row col) = 0 →
      LRow.item col (.n 0) (.n (resolveMax itemMax col (catMaxOf catMax cat)))
          .red ∈
        studentSheet itemMax catMax weights showAvgs categorized uncategorized
          idS fnS lnS row) ∧
    (isExcusedCell (getCell row col) = false →
      0 < earnedScore (getCell row col) →
      LRow.item col (.n (earnedScore (getCell row col)))
          (.n (resolveMax itemMax col (catMaxOf catMax cat))) .green ∈
        studentSheet itemMax catMax weights showAvgs categorized uncategorized
          idS fnS lnS row) := by
  have hmem := itemRow_mem_sheet itemMax catMax weights showAvgs categorized
    uncategorized idS fnS lnS row cat cols col hc hcol
  refine ⟨fun hE => ?_, fun hE h0 => ?_, fun hE hpos => ?_⟩
  · rwa [itemRow, if_pos hE] at hmem
  · rwa [itemRow, if_neg (by simp [hE]), h0, if_pos rfl] at hmem
  · rwa [itemRow, if_neg (by simp [hE]), if_neg (ne_of_gt hpos)] at hmem

/-- C5 witness: a sheet with one excused, one zero and one positive item,
through `itemRow_tristate_spec`. -/
theorem itemRow_tristate_spec_w :
    LRow.item "HW1" (.s "E") (.s "Excused") .amber ∈
      studentSheet [] [] [] false [("Assignments", ["HW1", "HW2", "HW3"])] []
        "1" "J" "S"
        [("HW1", CellVal.str "E"), ("HW2", CellVal.num 0),
         ("HW3", CellVal.num 7)] ∧
    LRow.item "HW2" (.n 0) (.n 100) .red ∈
      studentSheet [] [] [] false [("Assignments", ["HW1", "HW2", "HW3"])] []
        "1" "J" "S"
        [("HW1", CellVal.str "E"), ("HW2", CellVal.num 0),
         ("HW3", CellVal.num 7)] ∧
    LRow.item "HW3" (.n 7) (.n 100) .green ∈
      studentSheet [] [] [] false [("Assignments", ["HW1", "HW2", "HW3"])] []
        "1" "J" "S"
        [("HW1", CellVal.str "E"), ("HW2", CellVal.num 0),
         ("HW3", CellVal.num 7)] := by
  have h1 := itemRow_tristate_spec [] [] [] false
    [("Assignments", ["HW1", "HW2", "HW3"])] [] "1" "J" "S"
    [("HW1", CellVal.str "E"), ("HW2", CellVal.num 0), ("HW3", CellVal.num 7)]
    "Assignments" ["HW1", "HW2", "HW3"] "HW1" (by simp) (by simp)
  have h2 := itemRow_tristate_spec [] [] [] false
    [("Assignments", ["HW1", "HW2", "HW3"])] [] "1" "J" "S"
    [("HW1", CellVal.str "E"), ("HW2", CellVal.num 0), ("HW3", CellVal.num 7)]
    "Assignments" ["HW1", "HW2", "HW3"] "HW2" (by simp) (by simp)
  have h3 := itemRow_tristate_spec [] [] [] false
    [("Assignments", ["HW1", "HW2", "HW3"])] [] "1" "J" "S"
    [("HW1", CellVal.str "E"), ("HW2", CellVal.num 0), ("HW3", CellVal.num 7)]
    "Assignments" ["HW1", "HW2", "HW3"] "HW3" (by simp) (by simp)
  refine ⟨h1.1 (by with_unfolding_all rfl), ?_, ?_⟩
  · exact h2.2.1 (by with_unfolding_all rfl) (by with_unfolding_all rfl)
  · have he : earnedScore (getCell
        [("HW1", CellVal.str "E"), ("HW2", CellVal.num 0),
         ("HW3", CellVal.num 7)] "HW3") = 7 := by with_unfolding_all rfl
    have := h3.2.2 (by with_unfolding_all rfl) (by rw [he]; norm_num)
    rwa [he] at this

/-- C6 counterexample: weights are configured (`category_weights` non-empty)
but the student's only item is excused, so `category_averages` is empty and
the code's `if category_weights and category_averages:` skips the whole
weighted section — no "WEIGHTED GRADES" banner is written, contrary to the
claim's "if any category weights are configured". -/
theorem weightedSection_missing_cex :
    ([(("Exams" : String), (50 : ℚ))] ≠ []) ∧
    LRow.wBanner "WEIGHTED GRADES" ∉
      studentSheet [] [] [("Exams", 50)] false [("Exams", ["Exam 1"])] [] "1"
        "J" "S" [("Exam 1", CellVal.str "E")] := by
  have h : studentSheet [] [] [("Exams", 50)] false [("Exams", ["Exam 1"])]
      [] "1" "J" "S" [("Exam 1", CellVal.str "E")] =
      [.labelValue "ID:" "1", .labelValue "First Name:" "J",
       .labelValue "Last Name:" "S",
       .header3 "Categories" "Score" "Max Points",
       .catBanner "EXAMS",
       .item "Exam 1" (.s "E") (.s "Excused") .amber,
       .excusedRow "EXCUSED ASSIGNMENTS" 1] := by with_unfolding_all rfl
  refine ⟨by simp, ?_⟩
  rw [h]
  intro hmem
  simp at hmem

/-- C6 (amended): when weights are configured **and** at least one category
has a computed percentage, the sheet contains — contiguously — the
"WEIGHTED GRADES" banner, the Category / Score (%) / Weight (%) /
Weighted Score sub-header, one row per computed category percentage, and the
"FINAL WEIGHTED GRADE" row showing the rounded weighted total and the total
weight used. -/
theorem weightedSection_spec (itemMax catMax weights : List (String × ℚ))
    (showAvgs : Bool) (categorized : List (String × List String))
    (uncategorized : List String) (idS fnS lnS : String)
    (row : List (String × CellVal)) (hw : weights ≠ [])
    (ha : avgsList itemMax catMax row categorized uncategorized ≠ []) :
    ∃ pfx sfx,
      studentSheet itemMax catMax weights showAvgs categorized uncategorized
          idS fnS lnS row =
        pfx ++
          ([LRow.wBanner "WEIGHTED GRADES",
            LRow.wHeader "Category" "Score (%)" "Weight (%)" "Weighted Score"]
            ++ (avgsList itemMax catMax row categorized uncategorized).map
                (wRowOf weights)
            ++ [LRow.wFinal "FINAL WEIGHTED GRADE"
                (round2 (finalGrade weights
                  (avgsList itemMax catMax row categorized uncategorized)).1)
                (finalGrade weights
                  (avgsList itemMax catMax row categorized uncategorized)).2])
          ++ sfx := by
  refine ⟨[LRow.labelValue "ID:" idS, LRow.labelValue "First Name:" fnS,
      LRow.labelValue "Last Name:" lnS,
      LRow.header3 "Categories" "Score" "Max Points"]
    ++ categorized.flatMap (fun p =>
        LRow.catBanner (pyUpper p.1) ::
          (categoryItems row p.2).map
            (fun it => itemRow itemMax (catMaxOf catMax p.1) it.1 it.2))
    ++ (if uncategorized ≠ [] then
          LRow.catBanner "OTHER" ::
            (categoryItems row uncategorized).map
              (fun it => itemRow itemMax (catMaxOf catMax "Other") it.1 it.2)
        else [])
    ++ (if showAvgs ∧
          avgsList itemMax catMax row categorized uncategorized ≠ [] then
          LRow.catBanner "CATEGORY AVERAGES (%)" ::
            (avgsList itemMax catMax row categorized uncategorized).map
              (fun p => LRow.avgRow p.1 (round2 p.2))
        else []),
    (if 0 < excusedCount row categorized uncategorized then
        [LRow.excusedRow "EXCUSED ASSIGNMENTS"
          (excusedCount row categorized uncategorized)]
      else []), ?_⟩
  rw [studentSheet, if_pos (And.intro hw ha)]

/-- C6 witness: one exam scored 80/100 at weight 50 produces the weighted
block, through `weightedSection_spec`. -/
theorem weightedSection_spec_w :
    ∃ pfx sfx,
      studentSheet [] [] [("Exams", 50)] false [("Exams", ["Exam 1"])] [] "1"
          "J" "S" [("Exam 1", CellVal.num 80)] =
        pfx ++
          ([LRow.wBanner "WEIGHTED GRADES",
            LRow.wHeader "Category" "Score (%)" "Weight (%)" "Weighted Score"]
            ++ (avgsList [] [] [("Exam 1", CellVal.num 80)]
                [("Exams", ["Exam 1"])] []).map (wRowOf [("Exams", 50)])
            ++ [LRow.wFinal "FINAL WEIGHTED GRADE"
                (round2 (finalGrade [("Exams", 50)]
                  (avgsList [] [] [("Exam 1", CellVal.num 80)]
                    [("Exams", ["Exam 1"])] [])).1)
                (finalGrade [("Exams", 50)]
                  (avgsList [] [] [("Exam 1", CellVal.num 80)]
                    [("Exams", ["Exam 1"])] [])).2])
          ++ sfx := by
  have ha : avgsList [] [] [("Exam 1", CellVal.num 80)]
      [("Exams", ["Exam 1"])] [] = [("Exams", 80)] := by with_unfolding_all rfl
  exact weightedSection_spec [] [] [("Exams", 50)] false
    [("Exams", ["Exam 1"])] [] "1" "J" "S" [("Exam 1", CellVal.num 80)]
    (by simp) (by rw [ha]; simp)

/-- C7: the sheet name is the candidate
`strip(truncate31("{last}, {first}"))` with fallback `Student_{idx}` when
empty or `", "`; an unused candidate is taken as is, and on collision the
final name is the candidate truncated to 28 characters with `_N` appended for
the least N ≥ 1 that is unused. -/
theorem allocate_spec (l f : String) (idx : ℕ) (used : List String) :
    (candidateName l f idx ∉ used →
      allocate l f idx used = candidateName l f idx) ∧
    (candidateName l f idx ∈ used →
      ∃ N, 1 ≤ N ∧
        allocate l f idx used = collisionName (candidateName l f idx) N ∧
        collisionName (candidateName l f idx) N ∉ used ∧
        ∀ m, 1 ≤ m → m < N →
          collisionName (candidateName l f idx) m ∈ used) := by
  constructor
  · intro h
    rw [allocate, uniqueName, if_neg h]
  · intro h
    obtain ⟨N, hEq, h1, h2, h3⟩ := uniqueName_spec (candidateName l f idx)
      used h
    exact ⟨N, h1, hEq, h2, h3⟩

/-- C7 witness: `"Smith, John"` unused is taken as is; a second
`"Smith, John"` gets `_1`; empty names fall back to `Student_{idx}` — all
through `allocate_spec`. -/
theorem allocate_spec_w :
    allocate "Smith" "John" 7 [] = "Smith, John" ∧
    allocate "Smith" "John" 8 ["Smith, John"] = "Smith, John_1" ∧
    allocate "" "" 3 [] = "Student_3" := by
  have hcand : candidateName "Smith" "John" 8 = "Smith, John" := by
    with_unfolding_all rfl
  have hcn : collisionName (candidateName "Smith" "John" 8) 1 =
      "Smith, John_1" := by with_unfolding_all rfl
  refine ⟨?_, ?_, ?_⟩
  · exact ((allocate_spec "Smith" "John" 7 []).1 (by simp)).trans
      (by with_unfolding_all rfl)
  · have hmem : candidateName "Smith" "John" 8 ∈ ["Smith, John"] := by
      rw [hcand]
      exact List.mem_singleton.2 rfl
    obtain ⟨N, hN1, hEq, hfresh, hmin⟩ :=
      (allocate_spec "Smith" "John" 8 ["Smith, John"]).2 hmem
    have hN : N = 1 := by
      by_contra hne
      have := hmin 1 (le_refl 1) (by omega)
      rw [hcn] at this
      exact absurd (List.mem_singleton.1 this) (by decide)
    rw [hN] at hEq
    exact hEq.trans hcn
  · exact ((allocate_spec "" "" 3 []).1 (by simp)).trans
      (by with_unfolding_all rfl)

/-- C8: a dataset run produces exactly one sheet per valid row (a row with at
least one of ID / first / last name non-empty after trimming), invalid rows
produce none, and the produced sheet names are pairwise distinct. -/
theorem sheetNames_count_nodup (rows : List Student) :
    (gradebookSheetNames rows).length = (rows.filter isValid).length ∧
    (gradebookSheetNames rows).Nodup := by
  constructor
  · rw [gradebookSheetNames, sheetNamesAux_length]
    exact ((sortStudents_perm rows).filter isValid).length_eq
  · exact (sheetNamesAux_nodup _ _).1

end Gradebook
